import Mathlib

/-!
Shallow embedding of the cryptocrawl crawler (src/crawler/src/crawler.rs,
src/crawler/src/robots.rs, src/crawler/src/models.rs) with proofs settling
the claims about its specification.

Modelling conventions:
* Rust `String` operations over ASCII content are modelled over `String` /
  `List Char`; for the ASCII inputs considered, Rust's byte indices and our
  character indices coincide.
* Rust `HashSet<String>` is modelled as a duplicate-free insertion-ordered
  `List String` (insert = append if absent); `HashMap<String, usize>` as an
  association list with overwriting insert.  Set/map contents, not order, are
  the meaningful content.
* Network I/O is abstracted by oracles (`String → FetchOutcome`, sitemap
  fetchers `String → Option String`): they return what the corresponding
  `reqwest` call would have produced.  Loops whose Rust termination relies on
  the environment take explicit fuel.
-/

set_option maxRecDepth 4000

namespace CryptoCrawl

/-! ### Basic helpers -/

/-- Boolean membership for string lists (`HashSet::contains`). -/
def memS (l : List String) (x : String) : Bool :=
  l.any (fun y => decide (y = x))

/-- `HashSet::insert` on the list model: append if not already present. -/
def insertKey (l : List String) (x : String) : List String :=
  if memS l x then l else l ++ [x]

/-- `a` is a prefix of `b` (on character lists). -/
def prefixOfL : List Char → List Char → Bool
  | [], _ => true
  | _ :: _, [] => false
  | x :: xs, y :: ys => x == y && prefixOfL xs ys

/-- Substring search (Rust `str::contains`), on character lists. -/
def containsSubL (pat : List Char) : List Char → Bool
  | [] => prefixOfL pat []
  | c :: rest => prefixOfL pat (c :: rest) || containsSubL pat rest

/-- Rust `str::contains(pat)`. -/
def strContains (s pat : String) : Bool :=
  containsSubL pat.data s.data

/-- Rust `str::starts_with(pat)`. -/
def startsWithS (s pat : String) : Bool :=
  prefixOfL pat.data s.data

/-- Rust `str::ends_with(pat)`. -/
def endsWithS (s pat : String) : Bool :=
  prefixOfL pat.data.reverse s.data.reverse

/-- Drop the last `n` characters (Rust slicing `pattern[..len - n]`). -/
def dropRightS (s : String) (n : Nat) : String :=
  ⟨s.data.take (s.data.length - n)⟩

/-- ASCII lowering of one character (Rust `to_lowercase` restricted to the
ASCII inputs considered). -/
def lowerChar (c : Char) : Char :=
  if 'A' ≤ c ∧ c ≤ 'Z' then Char.ofNat (c.toNat + 32) else c

/-- Rust `str::to_lowercase` for ASCII content. -/
def strLower (s : String) : String :=
  ⟨s.data.map lowerChar⟩

/-- Does `s` contain any of the given substrings? -/
def containsAny (s : String) (pats : List String) : Bool :=
  pats.any (fun p => strContains s p)

/-- Association-list lookup (`HashMap::get`). -/
def assocFind (m : List (String × Nat)) (k : String) : Option Nat :=
  match m with
  | [] => none
  | (k0, v0) :: rest => if k0 = k then some v0 else assocFind rest k

/-- Association-list overwriting insert (`HashMap::insert`). -/
def assocInsert (m : List (String × Nat)) (k : String) (v : Nat) :
    List (String × Nat) :=
  match m with
  | [] => [(k, v)]
  | (k0, v0) :: rest =>
    if k0 = k then (k, v) :: rest else (k0, v0) :: assocInsert rest k v

/-- Take up to `n` elements off the front of a queue, returning the batch and
the remaining queue (the batched dequeue of crawler.rs lines 416-438). -/
def takeUpTo (n : Nat) (l : List α) : List α × List α :=
  (l.take n, l.drop n)

/-! ### robots.txt rule evaluation (robots.rs lines 10-181)

`RobotsTxt.rules` is a `HashMap<String, Vec<Rule>>` in Rust; we model it as an
association list of groups.  The iteration order of the prefix-matching loop
(robots.rs line 112) is unspecified for a `HashMap`; the list order stands in
for one such order. -/

/-- robots.rs `Rule`. -/
inductive Rule where
  | allow (pattern : String)
  | disallow (pattern : String)
deriving DecidableEq, Repr

def Rule.pattern : Rule → String
  | .allow p => p
  | .disallow p => p

def Rule.isAllow : Rule → Bool
  | .allow _ => true
  | .disallow _ => false

/-- robots.rs `RobotsTxt`. -/
structure RobotsTxt where
  rules : List (String × List Rule)
  default_rules : List Rule
deriving DecidableEq, Repr

/-- robots.rs `path_matches` (lines 166-180). -/
def path_matches (pattern path : String) : Bool :=
  if pattern = "/" then true
  else if endsWithS pattern "*" then
    startsWithS path (dropRightS pattern 1)
  else
    path = pattern || startsWithS path (pattern ++ "/")

/-- Does `r` match the path? -/
def ruleMatches (r : Rule) (path : String) : Bool :=
  path_matches r.pattern path

/-- robots.rs `check_rules` (lines 137-163): scan the rules in file order,
each matching rule overwrites the decision, so the last match wins; `none`
when no rule matched. -/
def check_rules (rules : List Rule) (path : String) : Option Bool :=
  rules.foldl
    (fun acc r =>
      match r with
      | .allow p => if path_matches p path then some true else acc
      | .disallow p => if path_matches p path then some false else acc)
    none

/-- `HashMap::get` on the group map. -/
def lookupRules (m : List (String × List Rule)) (k : String) :
    Option (List Rule) :=
  match m.find? (fun p => decide (p.1 = k)) with
  | some p => some p.2
  | none => none

/-- The prefix-matching loop of `can_fetch` (robots.rs lines 112-118): first
group whose agent is a prefix of the request agent and whose rules decide. -/
def firstPrefixDecision (m : List (String × List Rule)) (ua path : String) :
    Option Bool :=
  match m with
  | [] => none
  | (agent, rs) :: rest =>
    if startsWithS ua agent then
      match check_rules rs path with
      | some b => some b
      | none => firstPrefixDecision rest ua path
    else firstPrefixDecision rest ua path

/-- The final tier of `can_fetch`: the ungrouped default rules, then the
default-allow fallback (robots.rs lines 127-133). -/
def canFetchDefaultTier (rt : RobotsTxt) (path : String) : Bool :=
  match check_rules rt.default_rules path with
  | some allowed => allowed
  | none => true

/-- The middle tiers of `can_fetch`: agent-prefix groups, then the `*` group,
then the default tier (robots.rs lines 111-133).  A tier returns early when
its group exists *and* its rules decide — the composition of the two `if let`s
of the Rust code is `Option.bind`. -/
def canFetchPrefixTier (rt : RobotsTxt) (ua path : String) : Bool :=
  match firstPrefixDecision rt.rules ua path with
  | some allowed => allowed
  | none =>
    match (lookupRules rt.rules "*").bind (fun rs => check_rules rs path) with
    | some allowed => allowed
    | none => canFetchDefaultTier rt path

/-- robots.rs `can_fetch` (lines 100-134); takes `url.path()` directly. -/
def can_fetch (rt : RobotsTxt) (userAgent path : String) : Bool :=
  let ua := strLower userAgent
  match (lookupRules rt.rules ua).bind (fun rs => check_rules rs path) with
  | some allowed => allowed
  | none => canFetchPrefixTier rt ua path

/-- The last rule in file order whose pattern matches the path (later rules
take precedence over earlier ones). -/
def lastMatch : List Rule → String → Option Rule
  | [], _ => none
  | r :: rest, path =>
    match lastMatch rest path with
    | some r2 => some r2
    | none => if ruleMatches r path then some r else none

/-! ### Sitemap URL extraction (robots.rs lines 183-228)

The Rust code scans the XML text by hand: repeatedly find `<loc>`, take the
text up to `</loc>`, and classify the value by looking at the *nearest
preceding `<`* in the prefix of the document scanned so far (`rfind('<')`),
comparing the tag found there with `<sitemap` and `<url`. -/

/-- First index at which `pat` occurs in `l` (Rust `str::find` for a literal
pattern). -/
def findSub (pat : List Char) : List Char → Option Nat
  | [] => if pat.isEmpty then some 0 else none
  | c :: rest =>
    if prefixOfL pat (c :: rest) then some 0
    else (findSub pat rest).map (· + 1)

/-- Index of the last occurrence of character `c` in `l` (Rust `str::rfind`). -/
def rfindChar (l : List Char) (c : Char) : Option Nat :=
  let rec go : List Char → Nat → Option Nat → Option Nat
    | [], _, acc => acc
    | x :: xs, i, acc => go xs (i + 1) (if x = c then some i else acc)
  go l 0 none

/-- ASCII whitespace (enough for Rust `str::trim` on the inputs considered). -/
def isWsChar (c : Char) : Bool :=
  c == ' ' || c == '\n' || c == '\t' || c == '\r'

/-- Rust `str::trim` on a character list. -/
def trimCharsL (l : List Char) : List Char :=
  ((l.dropWhile isWsChar).reverse.dropWhile isWsChar).reverse

/-- Rust `str::trim`. -/
def trimS (s : String) : String :=
  ⟨trimCharsL s.data⟩

/-- Split on spaces, collecting the current token in `acc` (reversed). -/
def splitWsAux : List Char → List Char → List (List Char)
  | [], acc => [acc.reverse]
  | c :: rest, acc =>
    if c = ' ' then acc.reverse :: splitWsAux rest []
    else splitWsAux rest (c :: acc)

/-- The whitespace-separated tokens of a `class` attribute value. -/
def classTokens (s : String) : List String :=
  ((splitWsAux s.data []).map (fun l => (⟨l⟩ : String))).filter
    (fun t => !(t == ""))

/-- The scanning loop of `extract_urls_from_sitemap` (robots.rs lines
190-225).  `pos` is the current scan position; the fuel dominates the number
of loop iterations (each iteration advances `pos` by at least 11). -/
def extractLoop (content : List Char) (fuel pos : Nat)
    (smaps purls : List String) : List String × List String :=
  match fuel with
  | 0 => (smaps, purls)
  | fuel + 1 =>
    match findSub "<loc>".data (content.drop pos) with
    | none => (smaps, purls)
    | some locStart =>
      let pos := pos + locStart + 5
      match findSub "</loc>".data (content.drop pos) with
      | none => (smaps, purls)
      | some locEnd =>
        let url : String := ⟨trimCharsL ((content.drop pos).take locEnd)⟩
        let preceding := content.take pos
        let tagType : Option Bool :=
          match rfindChar preceding '<' with
          | some idx =>
            let tagStart := preceding.drop idx
            if prefixOfL "<sitemap".data tagStart ||
               prefixOfL "<sitemap>".data tagStart then some true
            else if prefixOfL "<url".data tagStart ||
                    prefixOfL "<url>".data tagStart then some false
            else none
          | none => none
        let (smaps, purls) :=
          match tagType with
          | some true => (smaps ++ [url], purls)
          | some false => (smaps, purls ++ [url])
          | none => (smaps, purls ++ [url])
        extractLoop content fuel (pos + locEnd + 6) smaps purls

/-- robots.rs `extract_urls_from_sitemap` (lines 185-228): returns
`(sitemap_urls, page_urls)`. -/
def extract_urls_from_sitemap (content : String) :
    List String × List String :=
  extractLoop content.data (content.data.length + 1) 0 [] []

/-- One push phase of `process_sitemap_non_recursive` (robots.rs lines
559-565): push the unseen sub-sitemaps onto the stack (a Rust `Vec` pushed at
the end and popped from the end; our list stack pushes and pops at the head,
which yields the same pop order). -/
def pushSubSitemaps (subs : List String) (stack visitedS : List String) :
    List String × List String :=
  subs.foldl
    (fun acc sub =>
      if memS acc.2 sub then acc else (sub :: acc.1, insertKey acc.2 sub))
    (stack, visitedS)

/-- The stack loop of `process_sitemap_non_recursive` (robots.rs lines
520-566), with `fetch` returning the text of a successfully fetched sitemap
(`none` = network/status/text failure, which the code skips). -/
def processStack (fetch : String → Option String) (fuel : Nat)
    (stack allUrls visitedS : List String) : List String × List String :=
  match fuel with
  | 0 => (allUrls, visitedS)
  | fuel + 1 =>
    match stack with
    | [] => (allUrls, visitedS)
    | smUrl :: rest =>
      match fetch smUrl with
      | none => processStack fetch fuel rest allUrls visitedS
      | some content =>
        let (subs, pages) := extract_urls_from_sitemap content
        let allUrls := pages.foldl insertKey allUrls
        let (stack', visited') := pushSubSitemaps subs rest visitedS
        processStack fetch fuel stack' allUrls visited'

/-- The traversal part of `get_sitemap_urls` (robots.rs lines 484-507, calling
`process_sitemap_non_recursive` on each seed sitemap URL with shared `all_urls`
and `visited_sitemaps` sets; each call first marks its initial sitemap
visited, robots.rs line 523). -/
def getSitemapUrls (seeds : List String) (fetch : String → Option String)
    (fuel : Nat) : List String :=
  (seeds.foldl
    (fun acc s =>
      processStack fetch fuel [s] acc.1 (insertKey acc.2 s))
    ([], [])).1

/-! ### JavaScript-dependency classifier (robots.rs lines 572-666)

`is_javascript_dependent` inspects the `scraper`-parsed document.  We model
the parsed document as the raw text plus the list of its elements in document
order (tag name, attributes, inner HTML); each numbered check below translates
the corresponding CSS-selector query. -/

structure Attr where
  name : String
  value : String
deriving DecidableEq, Repr

structure Element where
  tag : String
  attrs : List Attr
  innerHtml : String
deriving DecidableEq, Repr

structure HtmlDoc where
  raw : String
  elements : List Element
deriving DecidableEq, Repr

def getAttr (el : Element) (n : String) : Option String :=
  match el.attrs.find? (fun a => decide (a.name = n)) with
  | some a => some a.value
  | none => none

def hasAttr (el : Element) (n : String) : Bool :=
  (getAttr el n).isSome

def classList (el : Element) : List String :=
  match getAttr el "class" with
  | some c => classTokens c
  | none => []

def hasClass (el : Element) (c : String) : Bool :=
  memS (classList el) c

def idIs (el : Element) (i : String) : Bool :=
  match getAttr el "id" with
  | some v => decide (v = i)
  | none => false

/-- Check 1: a `noscript` element whose contents mention javascript. -/
def checkNoscript (d : HtmlDoc) : Bool :=
  d.elements.any fun el =>
    el.tag == "noscript" &&
    (strContains (strLower el.innerHtml) "javascript" ||
     strContains (strLower el.innerHtml) "enable" ||
     strContains (strLower el.innerHtml) "script")

/-- Check 2: a known SPA root element (selectors `#app`, `#root`, `[ng-app]`,
`[data-reactroot]`, `.vue-app`, `.ember-view`, `.ember-application`). -/
def checkFrameworkRoot (d : HtmlDoc) : Bool :=
  d.elements.any fun el =>
    idIs el "app" || idIs el "root" || hasAttr el "ng-app" ||
    hasAttr el "data-reactroot" || hasClass el "vue-app" ||
    hasClass el "ember-view" || hasClass el "ember-application"

/-- Check 3: a `script[src]` whose `src` contains a framework keyword. -/
def checkFrameworkScript (d : HtmlDoc) : Bool :=
  d.elements.any fun el =>
    el.tag == "script" &&
    (match getAttr el "src" with
     | some src =>
       strContains (strLower src) "react" || strContains (strLower src) "vue" ||
       strContains (strLower src) "angular" || strContains (strLower src) "ember" ||
       strContains (strLower src) "webpack" || strContains (strLower src) "chunk"
     | none => false)

/-- Check 4: the crates.io Ember config meta tag. -/
def checkEmberMeta (d : HtmlDoc) : Bool :=
  d.elements.any fun el =>
    el.tag == "meta" &&
    (match getAttr el "name" with
     | some v => decide (v = "crates-io/config/environment")
     | none => false)

/-- Check 5: lazy-loaded images (`img[loading='lazy'], img[data-src]`). -/
def checkLazyImages (d : HtmlDoc) : Bool :=
  d.elements.any fun el =>
    el.tag == "img" &&
    ((match getAttr el "loading" with
      | some v => decide (v = "lazy")
      | none => false) ||
     hasAttr el "data-src")

/-- Check 6: web components (`*[is], *[custom-element]`). -/
def checkWebComponents (d : HtmlDoc) : Bool :=
  d.elements.any fun el => hasAttr el "is" || hasAttr el "custom-element"

/-- Check 7: an empty primary content container
(`main, #content, .content, article` with empty inner HTML). -/
def checkEmptyContainer (d : HtmlDoc) : Bool :=
  d.elements.any fun el =>
    (el.tag == "main" || idIs el "content" || hasClass el "content" ||
     el.tag == "article") &&
    decide (trimS el.innerHtml = "")

/-- Check 8: loading indicators (attribute-substring selectors
`[class*='loading'], [id*='loading'], [class*='spinner']`). -/
def checkLoadingIndicator (d : HtmlDoc) : Bool :=
  d.elements.any fun el =>
    (match getAttr el "class" with
     | some c => strContains c "loading" || strContains c "spinner"
     | none => false) ||
    (match getAttr el "id" with
     | some i => strContains i "loading"
     | none => false)

/-- Check 9: inline dynamic-content triggers in the raw HTML text. -/
def checkDynamicInit (d : HtmlDoc) : Bool :=
  strContains d.raw "window." || strContains d.raw "document." ||
  strContains d.raw "addEventListener" || strContains d.raw "DOMContentLoaded"

/-- Any of the nine signals of `is_javascript_dependent`. -/
def anySignal (d : HtmlDoc) : Bool :=
  checkNoscript d || checkFrameworkRoot d || checkFrameworkScript d ||
  checkEmberMeta d || checkLazyImages d || checkWebComponents d ||
  checkEmptyContainer d || checkLoadingIndicator d || checkDynamicInit d

/-- robots.rs `is_javascript_dependent` (lines 573-666): each check pushes at
most one reason (the Rust loops break after the first hit), and the page is
JS-dependent when at least one reason was collected. -/
def is_javascript_dependent (d : HtmlDoc) : Bool × List String :=
  let reasons :=
    (if checkNoscript d then ["noscript warning found"] else []) ++
    (if checkFrameworkRoot d then ["JavaScript framework root element found"] else []) ++
    (if checkFrameworkScript d then ["JavaScript framework script found"] else []) ++
    (if checkEmberMeta d then ["Ember.js application detected"] else []) ++
    (if checkLazyImages d then ["Lazy-loaded images found"] else []) ++
    (if checkWebComponents d then ["Web components found"] else []) ++
    (if checkEmptyContainer d then ["Empty content container found"] else []) ++
    (if checkLoadingIndicator d then ["Loading indicator found"] else []) ++
    (if checkDynamicInit d then ["Dynamic content initialization found"] else [])
  (decide (1 ≤ reasons.length), reasons)

/-! ### URLs and domain scoping (crawler.rs)

Only the pieces of `url::Url` the crawl loop uses are modelled: scheme, host,
path and fragment; `to_string` renders them; `set_fragment(None)` is the
normalization the loop applies everywhere. -/

structure Url where
  scheme : String
  host : Option String
  path : String
  frag : Option String
deriving DecidableEq, Repr

/-- `url.set_fragment(None)`. -/
def Url.norm (u : Url) : Url := { u with frag := none }

/-- `url.to_string()` for the http(s)-style URLs considered. -/
def Url.key (u : Url) : String :=
  u.scheme ++ "://" ++
  (match u.host with | some h => h | none => "") ++
  u.path ++
  (match u.frag with | some f => "#" ++ f | none => "")

/-- crawler.rs `is_same_domain` (lines 1054-1068). -/
def is_same_domain (url : Url) (target_domain : String)
    (include_subdomains : Bool) : Bool :=
  match url.host with
  | some host =>
    decide (host = target_domain) ||
    (include_subdomains && endsWithS host ("." ++ target_domain))
  | none => false

/-! ### The two-phase visited-set registration (crawler.rs lines 851-869)

After extracting and domain-filtering a page's links, a worker first takes the
`visited` lock to *filter* the batch down to the unvisited links (step 1,
lines 853-858), releases it, then re-takes the locks to *insert* them into the
visited set and depth map (step 2, lines 861-869), and finally enqueues its
filtered batch.  `regStep` makes each lock-protected phase one atomic step of
two concurrent workers so that interleavings can be examined; `enq1`/`enq2`
are the links each worker goes on to enqueue (its filtered batch). -/

structure RegSys where
  visited : List String
  pend1 : List String
  pend2 : List String
  enq1 : List String
  enq2 : List String
deriving DecidableEq, Repr

inductive RegOp where
  | checkOf1
  | insOf1
  | checkOf2
  | insOf2
deriving DecidableEq, Repr

def regStep (links1 links2 : List String) (s : RegSys) : RegOp → RegSys
  | .checkOf1 => { s with pend1 := links1.filter (fun l => !(memS s.visited l)) }
  | .insOf1 =>
    { s with visited := s.pend1.foldl insertKey s.visited,
             enq1 := s.enq1 ++ s.pend1, pend1 := [] }
  | .checkOf2 => { s with pend2 := links2.filter (fun l => !(memS s.visited l)) }
  | .insOf2 =>
    { s with visited := s.pend2.foldl insertKey s.visited,
             enq2 := s.enq2 ++ s.pend2, pend2 := [] }

/-- Run a schedule (interleaving) of the two workers' phases. -/
def regRun (links1 links2 : List String) (s : RegSys) (ops : List RegOp) :
    RegSys :=
  ops.foldl (regStep links1 links2) s

/-- Modelled from the spec: `register(url) -> bool`, the atomic
check-then-insert into the VisitedRegistry under one lock acquisition that
spec section 4.1 describes (the repository code at crawler.rs lines 851-869
instead performs the check and the insert under two separate lock
acquisitions; this definition follows the spec's words, for comparison). -/
def registerSpec (u : String) (s : List String) : Bool × List String :=
  if memS s u then (false, s) else (true, s ++ [u])

/-! ### The worker crawl loop (crawler.rs lines 364-931)

A single worker of `crawl_with_streaming`, modelled sequentially.  The
headless-Chrome escalation is disabled (`use_headless_chrome = false`, the
default of `Crawler::new`), so the JS-rendering branch (lines 630-715) is
never taken.  Wall-clock values (timestamps, sleeps) are dropped; the page
record keeps url, size, status code and content type.  The fetch oracle
returns what the `reqwest` GET and the subsequent `scraper` link extraction
would have produced for a URL; `fetchLog` records every GET performed. -/

/-- Outcome of the GET of crawler.rs lines 509-514 (plus the parsed links of
the body): `netError` is a failed send (lines 515-581); `response` carries the
status, the Content-Type header, and `none` for a failed `response.text()`
(lines 719-727) or `some (body, links)` for a decoded body with the links its
HTML contains. -/
inductive FetchOutcome where
  | netError
  | response (status : Nat) (contentType : Option String)
      (bodyRes : Option (String × List Url))
deriving DecidableEq, Repr

/-- A recorded page (models.rs `CrawledPage`, sans timestamp and body). -/
structure Page where
  url : String
  size : Nat
  status_code : Option Nat
  content_type : Option String
deriving DecidableEq, Repr

/-- Per-crawl constants a worker closes over. -/
structure Cfg where
  maxDepth : Nat
  maxLinks : Option Nat
  followSubdomains : Bool
  domain : String
  workerId : Nat
deriving DecidableEq, Repr

/-- The shared and worker-local mutable state of the loop. -/
structure WState where
  important : List Url
  regular : List Url
  visited : List String
  depthMap : List (String × Nat)
  pagesCount : Nat
  totalSize : Nat
  retryQ : List (Url × Nat)
  localBuf : List Url
  recorded : List Page
  fetchLog : List String
deriving DecidableEq, Repr

/-- `depth_map.get(url).unwrap_or(&0)` (crawler.rs lines 469-472). -/
def depthOf (m : List (String × Nat)) (k : String) : Nat :=
  (assocFind m k).getD 0

/-- Importance markers used when enqueueing children (crawler.rs 877-883). -/
def importancePatterns : List String :=
  ["/crates/", "/categories/", "/keywords/", "/products/", "/articles/",
   "/docs/", "/blog/"]

/-- Importance markers used when re-queueing after HTTP 429 (crawler.rs
590-592). -/
def rateRetryPatterns : List String :=
  ["/crates/", "/categories/", "/keywords/"]

/-- The sampled robots check (crawler.rs lines 487-498): only workers with
`worker_id % 3 == 0` consult robots.txt, the rest assume allowed. -/
def robotsAllowed (cfg : Cfg) (robots : String → Bool) (key : String) : Bool :=
  if cfg.workerId % 3 = 0 then robots key else true

/-- Non-HTML content-type skip (crawler.rs lines 606-611). -/
def nonHtmlCt : Option String → Bool
  | some ct => !(strContains ct "text/html") &&
               !(strContains ct "application/xhtml+xml")
  | none => false

/-- Link filtering and enqueueing for a fetched page (crawler.rs lines
822-912): normalize each link (drop fragment), keep same-domain ones, filter
to the not-yet-visited ones under the visited lock, then insert them into the
visited set and depth map (child depth = parent depth + 1) and push them onto
the tier matching their importance. -/
def enqueueLinks (cfg : Cfg) (st : WState) (parentDepth : Nat)
    (links : List Url) : WState :=
  let newLinks := (links.map Url.norm).filter
    (fun l => is_same_domain l cfg.domain cfg.followSubdomains)
  let unvisited := newLinks.filter (fun l => !(memS st.visited l.key))
  let visited2 := unvisited.foldl (fun v l => insertKey v l.key) st.visited
  let depth2 := unvisited.foldl
    (fun m l => assocInsert m l.key (parentDepth + 1)) st.depthMap
  let impL := unvisited.filter (fun l => containsAny l.key importancePatterns)
  let regL := unvisited.filter (fun l => !(containsAny l.key importancePatterns))
  { st with visited := visited2, depthMap := depth2,
            important := st.important ++ impL,
            regular := st.regular ++ regL }

/-- Handling of one fetch outcome (crawler.rs lines 509-931; `st1` already
carries the GET in its fetch log): network error: record a zero-size page with
no status and count it; HTTP 429: re-queue onto a tier without counting;
non-HTML: skip without counting; body decode failure: push a retry entry with
attempt count 1; success: record the page, bump the counters and enqueue its
links. -/
def processOutcome (cfg : Cfg) (st1 : WState) (url : Url) (depth : Nat) :
    FetchOutcome → WState
  | .netError =>
    { st1 with recorded := st1.recorded ++ [⟨url.key, 0, none, none⟩],
               pagesCount := st1.pagesCount + 1 }
  | .response status ct bodyRes =>
    if status = 429 then
      if containsAny url.key rateRetryPatterns then
        { st1 with important := st1.important ++ [url] }
      else
        { st1 with regular := st1.regular ++ [url] }
    else if nonHtmlCt ct then st1
    else
      match bodyRes with
      | none => { st1 with retryQ := st1.retryQ ++ [(url, 1)] }
      | some (body, links) =>
        let st2 := { st1 with
          recorded := st1.recorded ++ [⟨url.key, body.length, some status, ct⟩],
          pagesCount := st1.pagesCount + 1,
          totalSize := st1.totalSize + body.length }
        enqueueLinks cfg st2 depth links

/-- Processing of one dequeued URL (crawler.rs lines 461-931): discard it
unfetched when its recorded depth has reached `max_depth` (lines 469-477);
skip it when the sampled robots check denies it (lines 487-503); otherwise GET
it and hand the outcome to `processOutcome`. -/
def processUrl (cfg : Cfg) (fetch : String → FetchOutcome)
    (robots : String → Bool) (st : WState) (url : Url) : WState :=
  let key := url.key
  let depth := depthOf st.depthMap key
  if cfg.maxDepth ≤ depth then st
  else if !(robotsAllowed cfg robots key) then st
  else
    processOutcome cfg { st with fetchLog := st.fetchLog ++ [key] } url depth
      (fetch key)

/-- Result of one pass through the worker loop body. -/
inductive StepResult where
  | halted (st : WState)
  | running (st : WState)
deriving DecidableEq, Repr

def StepResult.isHalted : StepResult → Bool
  | .halted _ => true
  | .running _ => false

def StepResult.state : StepResult → WState
  | .halted st => st
  | .running st => st

/-- One iteration of the worker loop (crawler.rs lines 394-931):
(1) stop once the shared counter reaches `max_links.unwrap_or(1000)`;
(2) pop a pending retry entry — if its attempt count is below 3 the URL is
both appended to the local buffer and re-queued with count + 1, otherwise the
entry is dropped (lines 401-410);
(3) refill the empty local buffer with a batch of up to 10, important tier
first (lines 413-438);
(4) with nothing to do, stop when both tiers, the retry queue are empty and
something was processed, else idle (lines 441-457);
(5) otherwise pop the local buffer from its end (`Vec::pop`, line 461) and
process that URL. -/
def loopIter (cfg : Cfg) (fetch : String → FetchOutcome)
    (robots : String → Bool) (st : WState) : StepResult :=
  if cfg.maxLinks.getD 1000 ≤ st.pagesCount then .halted st
  else
    let st :=
      match st.retryQ with
      | [] => st
      | (url, retries) :: rest =>
        if retries < 3 then
          { st with retryQ := rest ++ [(url, retries + 1)],
                    localBuf := st.localBuf ++ [url] }
        else
          { st with retryQ := rest }
    let st :=
      if st.localBuf.isEmpty then
        let (batch, imp2) := takeUpTo 10 st.important
        if batch.isEmpty then
          let (batch2, reg2) := takeUpTo 10 st.regular
          { st with regular := reg2, localBuf := batch2 }
        else
          { st with important := imp2, localBuf := batch }
      else st
    match st.localBuf.getLast? with
    | none =>
      if st.important.isEmpty && st.regular.isEmpty && st.retryQ.isEmpty &&
         0 < st.pagesCount then
        .halted st
      else
        .running st
    | some url =>
      .running (processUrl cfg fetch robots { st with localBuf := st.localBuf.dropLast } url)

/-- Iterate the worker loop for at most `fuel` iterations. -/
def runLoopN (cfg : Cfg) (fetch : String → FetchOutcome)
    (robots : String → Bool) : Nat → WState → WState
  | 0, st => st
  | n + 1, st =>
    match loopIter cfg fetch robots st with
    | .halted st2 => st2
    | .running st2 => runLoopN cfg fetch robots n st2

/-! ### Crawl entry point (crawler.rs lines 123-985, models.rs)

`crawl(task)` delegates to `crawl_with_streaming(task, None)`.  The `url`
crate's parser is an external dependency, so it enters the model as a
parameter `parse`; everything after it follows the source: parse the target
(line 159, error on failure), require a host (lines 164-167, error when
absent), seed the frontier with the normalized target at depth 0 (lines
249-263; sitemap seeding and the crates.io special-case are skipped for a
plain domain with no sitemaps), run the workers, then copy the shared counters
into the result and `complete()` it (lines 974-984).  Note `result.pages` is
never appended to by `crawl_with_streaming`: pages are streamed to the output
file instead. -/

structure TaskM where
  id : String
  target_url : String
  max_depth : Nat
  follow_subdomains : Bool
  max_links : Option Nat
deriving DecidableEq, Repr

inductive CrawlStatus where
  | InProgress
  | Completed
  | Failed
deriving DecidableEq, Repr

structure CrawlResultM where
  task_id : String
  domain : String
  status : CrawlStatus
  pages : List Page
  pages_count : Nat
  total_size : Nat
deriving DecidableEq, Repr

/-- models.rs `CrawlResult::new` (lines 171-189): starts `InProgress` with no
pages.  (`crawl_with_streaming` passes `task.target_url` as the `domain`
argument, crawler.rs line 125.) -/
def CrawlResultM.new (taskId dom : String) : CrawlResultM :=
  { task_id := taskId, domain := dom, status := .InProgress, pages := [],
    pages_count := 0, total_size := 0 }

/-- models.rs `CrawlResult::complete` (lines 220-228). -/
def CrawlResultM.complete (r : CrawlResultM) : CrawlResultM :=
  { r with status := .Completed }

/-- crawler.rs `crawl_with_streaming` as a function of the task, the URL
parser and the network oracles (single worker `workerId`, loop fuel `fuel`). -/
def crawlModel (parse : String → Option Url) (task : TaskM)
    (fetch : String → FetchOutcome) (robots : String → Bool)
    (workerId fuel : Nat) : Except String CrawlResultM :=
  match parse task.target_url with
  | none => .error "Failed to parse target URL"
  | some u0raw =>
    let u0 := Url.norm u0raw
    match u0.host with
    | none => .error "URL has no host"
    | some base_domain =>
      let result0 := CrawlResultM.new task.id task.target_url
      let cfg : Cfg :=
        { maxDepth := task.max_depth, maxLinks := task.max_links,
          followSubdomains := task.follow_subdomains, domain := base_domain,
          workerId := workerId }
      let st0 : WState :=
        { important := [u0], regular := [], visited := [u0.key],
          depthMap := [(u0.key, 0)], pagesCount := 0, totalSize := 0,
          retryQ := [], localBuf := [], recorded := [], fetchLog := [] }
      let stf := runLoopN cfg fetch robots fuel st0
      .ok (CrawlResultM.complete
        { result0 with pages_count := stf.pagesCount,
                       total_size := stf.totalSize })

/-! ### Concrete instances used by the claim theorems and witnesses -/

/-- Oracle: every URL allowed by robots.txt. -/
def robotsTrue : String → Bool := fun _ => true

/-- A robots.txt whose `*` group holds, in file order,
`[Disallow: /a, Allow: /a/b]`. -/
def rtEx : RobotsTxt := ⟨[("*", [Rule.disallow "/a", Rule.allow "/a/b"])], []⟩

/-- Sitemap document A: references sitemap B (inside `<sitemap>`) and lists
the page URL pageA (inside `<url>`). -/
def contentA : String :=
  "<sitemapindex><sitemap><loc>http://e.com/B.xml</loc></sitemap><url><loc>http://e.com/pageA</loc></url></sitemapindex>"

/-- Sitemap document B: references sitemap A and lists the page URL pageB,
closing the A -> B -> A cycle. -/
def contentB : String :=
  "<sitemapindex><sitemap><loc>http://e.com/A.xml</loc></sitemap><url><loc>http://e.com/pageB</loc></url></sitemapindex>"

/-- Fetch oracle serving the two cyclic sitemap documents. -/
def fetchAB : String → Option String := fun s =>
  if s = "http://e.com/A.xml" then some contentA
  else if s = "http://e.com/B.xml" then some contentB
  else none

/-- The single URL used in the retry / rate-limit traces. -/
def c2url : Url := ⟨"https", some "example.com", "/p", none⟩

/-- Worker configuration for the retry / rate-limit traces (`worker_id = 1`,
so the sampled robots check is skipped; `max_links = None`). -/
def c2cfg : Cfg :=
  { maxDepth := 1, maxLinks := none, followSubdomains := false,
    domain := "example.com", workerId := 1 }

/-- Fetch oracle: the GET succeeds with an HTML 200 response whose body fails
to decode (`response.text()` errors) on every attempt. -/
def fetchBodyFail : String → FetchOutcome :=
  fun _ => .response 200 (some "text/html") none

/-- Fetch oracle: every GET comes back HTTP 429. -/
def fetch429 : String → FetchOutcome := fun _ => .response 429 none none

/-- Fetch oracle: every GET fails with a network error. -/
def fetchNet : String → FetchOutcome := fun _ => .netError

/-- Initial worker state seeded with `c2url` at depth 0. -/
def c2s0 : WState :=
  { important := [c2url], regular := [], visited := [c2url.key],
    depthMap := [(c2url.key, 0)], pagesCount := 0, totalSize := 0,
    retryQ := [], localBuf := [], recorded := [], fetchLog := [] }

/-- The steady state of the always-429 trace: the URL sits in the regular
tier, nothing was counted, and `log` records the GETs performed so far. -/
def c6state (log : List String) : WState :=
  { important := [], regular := [c2url], visited := [c2url.key],
    depthMap := [(c2url.key, 0)], pagesCount := 0, totalSize := 0,
    retryQ := [], localBuf := [], recorded := [], fetchLog := log }

/-- Seed URL of the end-to-end scenario of spec section 8. -/
def seed8 : Url := ⟨"https", some "example.com", "/", none⟩

/-- The five links on the seed page: three same-domain, two cross-domain. -/
def links8 : List Url :=
  [⟨"https", some "example.com", "/p1", none⟩,
   ⟨"https", some "example.com", "/p2", none⟩,
   ⟨"https", some "example.com", "/p3", none⟩,
   ⟨"https", some "other.com", "/q1", none⟩,
   ⟨"https", some "other.com", "/q2", none⟩]

/-- Body of the seed page (21 bytes). -/
def body8 : String := "<html>seedbody</html>"

/-- Fetch oracle of the end-to-end scenario: the seed page is an HTML 200
response carrying `links8`; no other URL is ever fetched successfully. -/
def fetch8 : String → FetchOutcome := fun k =>
  if k = "https://example.com/" then
    .response 200 (some "text/html") (some (body8, links8))
  else .netError

/-- URL parser oracle for the end-to-end scenario. -/
def parse8 : String → Option Url := fun s =>
  if s = "https://example.com/" then some seed8 else none

/-- The end-to-end task: seed `https://example.com/`, `max_depth = 1`,
`max_links = 5`. -/
def task8 : TaskM :=
  { id := "t8", target_url := "https://example.com/",
    max_depth := 1, follow_subdomains := false, max_links := some 5 }

/-- Worker configuration induced by `task8`. -/
def cfg8 : Cfg :=
  { maxDepth := 1, maxLinks := some 5, followSubdomains := false,
    domain := "example.com", workerId := 1 }

/-- Initial worker state induced by `task8`. -/
def s8 : WState :=
  { important := [seed8], regular := [], visited := [seed8.key],
    depthMap := [(seed8.key, 0)], pagesCount := 0, totalSize := 0,
    retryQ := [], localBuf := [], recorded := [], fetchLog := [] }

/-- A state in which the seed already carries depth 1 (at the `max_depth` of
`cfg8`), used to witness the discard-on-dequeue behavior. -/
def s8d : WState := { s8 with depthMap := [(seed8.key, 1)] }

/-- The worker state in which the end-to-end crawl of `task8` terminates
(10 iterations are more than enough fuel; the loop halts at the fifth). -/
def c8final : WState := runLoopN cfg8 fetch8 robotsTrue 10 s8

/-- A worker state with 999 pages counted and one URL still buffered. -/
def c10st999 : WState := { c2s0 with pagesCount := 999, localBuf := [c2url] }

/-- A worker state with 1000 pages counted and one URL still buffered. -/
def c10st1000 : WState := { c2s0 with pagesCount := 1000, localBuf := [c2url] }

/-- The claim-C9 example page: an empty `#root` div plus a bundle script
(`/static/js/main.chunk.js`), as parsed into elements. -/
def jsDoc : HtmlDoc :=
  { raw := "<div id=\"root\"></div><script src=\"/static/js/main.chunk.js\"></script>",
    elements :=
      [⟨"html", [], "wrapper"⟩, ⟨"body", [], "wrapper"⟩,
       ⟨"div", [⟨"id", "root"⟩], ""⟩,
       ⟨"script", [⟨"src", "/static/js/main.chunk.js"⟩], ""⟩] }

/-- The claim-C9 counterpart: populated semantic `<article>` content with no
other signals. -/
def articleDoc : HtmlDoc :=
  { raw := "<html><body><article><h1>Intro</h1><p>Plenty of real text here.</p></article></body></html>",
    elements :=
      [⟨"html", [], "wrapper"⟩, ⟨"body", [], "wrapper"⟩,
       ⟨"article", [], "<h1>Intro</h1><p>Plenty of real text here.</p>"⟩,
       ⟨"h1", [], "Intro"⟩, ⟨"p", [], "Plenty of real text here."⟩] }

/-! ### Helper lemmas -/

theorem memS_iff (l : List String) (x : String) : memS l x = true ↔ x ∈ l := by
  simp [memS, List.any_eq_true]

theorem mem_insertKey (l : List String) (x y : String) :
    y ∈ insertKey l x ↔ y ∈ l ∨ y = x := by
  unfold insertKey
  by_cases h : memS l x = true
  · rw [if_pos h]
    constructor
    · exact Or.inl
    · rintro (hy | rfl)
      · exact hy
      · exact (memS_iff l y).mp h
  · rw [if_neg h]
    simp [List.mem_append]

theorem mem_foldl_insertKey (ls : List String) (v : List String) (y : String) :
    y ∈ ls.foldl insertKey v ↔ y ∈ v ∨ y ∈ ls := by
  induction ls generalizing v with
  | nil => simp
  | cons x rest ih =>
    simp only [List.foldl_cons]
    rw [ih, mem_insertKey]
    constructor
    · rintro ((hy | rfl) | hy)
      · exact Or.inl hy
      · exact Or.inr (List.mem_cons_self _ _)
      · exact Or.inr (List.mem_cons_of_mem _ hy)
    · rintro (hy | hy)
      · exact Or.inl (Or.inl hy)
      · rcases List.mem_cons.mp hy with rfl | hy
        · exact Or.inl (Or.inr rfl)
        · exact Or.inr hy

theorem decide_one_le_length (l : List String) :
    decide (1 ≤ l.length) = !l.isEmpty := by
  cases l <;> simp

theorem if_singleton_eq_nil {b : Bool} {s : String}
    (h : (if b = true then [s] else ([] : List String)) = []) : b = false := by
  cases b
  · rfl
  · simp at h

theorem assocFind_insert (m : List (String × Nat)) (k k' : String) (v : Nat) :
    assocFind (assocInsert m k v) k' =
      if k = k' then some v else assocFind m k' := by
  induction m with
  | nil => simp [assocInsert, assocFind]
  | cons p rest ih =>
    obtain ⟨k0, v0⟩ := p
    by_cases h0 : k0 = k
    · subst h0
      simp only [assocInsert, if_pos rfl, assocFind]
      by_cases h1 : k0 = k'
      · simp [h1]
      · simp [h1]
    · simp only [assocInsert, if_neg h0, assocFind]
      by_cases h1 : k0 = k'
      · have hkk : ¬ k = k' := fun he => h0 (h1.trans he.symm)
        simp [assocFind, h1, hkk]
      · simp [assocFind, h1, ih]

theorem assocFind_foldl_inserts (l : List Url) (m : List (String × Nat))
    (w : Nat) (k : String) (v : Nat)
    (h : assocFind (l.foldl (fun m u => assocInsert m u.key w) m) k = some v) :
    assocFind m k = some v ∨ v = w := by
  induction l generalizing m with
  | nil => exact Or.inl h
  | cons u rest ih =>
    rcases ih (assocInsert m u.key w) h with h2 | h2
    · rw [assocFind_insert] at h2
      by_cases he : u.key = k
      · rw [if_pos he] at h2
        exact Or.inr (Option.some.inj h2).symm
      · rw [if_neg he] at h2
        exact Or.inl h2
    · exact Or.inr h2

theorem enqueueLinks_depthMap (cfg : Cfg) (st : WState) (d : Nat)
    (links : List Url) (k : String) (v : Nat)
    (h : assocFind (enqueueLinks cfg st d links).depthMap k = some v) :
    assocFind st.depthMap k = some v ∨ v = d + 1 := by
  unfold enqueueLinks at h
  exact assocFind_foldl_inserts _ _ _ _ _ h

theorem processUrl_discard (cfg : Cfg) (fetch : String → FetchOutcome)
    (robots : String → Bool) (st : WState) (url : Url)
    (h : cfg.maxDepth ≤ depthOf st.depthMap url.key) :
    processUrl cfg fetch robots st url = st := by
  unfold processUrl
  rw [if_pos h]

theorem processUrl_robots_skip (cfg : Cfg) (fetch : String → FetchOutcome)
    (robots : String → Bool) (st : WState) (url : Url)
    (hd : ¬ cfg.maxDepth ≤ depthOf st.depthMap url.key)
    (hr : robotsAllowed cfg robots url.key = false) :
    processUrl cfg fetch robots st url = st := by
  unfold processUrl
  rw [if_neg hd, hr]
  rfl

theorem processUrl_fetch_eq (cfg : Cfg) (fetch : String → FetchOutcome)
    (robots : String → Bool) (st : WState) (url : Url)
    (hd : ¬ cfg.maxDepth ≤ depthOf st.depthMap url.key)
    (hr : robotsAllowed cfg robots url.key = true) :
    processUrl cfg fetch robots st url =
      processOutcome cfg { st with fetchLog := st.fetchLog ++ [url.key] } url
        (depthOf st.depthMap url.key) (fetch url.key) := by
  unfold processUrl
  rw [if_neg hd, hr]
  rfl

theorem processOutcome_depthMap (cfg : Cfg) (st1 : WState) (url : Url)
    (depth : Nat) (o : FetchOutcome) (k : String) (v : Nat)
    (h1 : assocFind (processOutcome cfg st1 url depth o).depthMap k = some v) :
    assocFind st1.depthMap k = some v ∨ v = depth + 1 := by
  rcases o with _ | ⟨status, ct, bodyRes⟩
  · exact Or.inl h1
  · simp only [processOutcome] at h1
    by_cases h429 : status = 429
    · rw [if_pos h429] at h1
      by_cases hc : containsAny url.key rateRetryPatterns = true
      · rw [if_pos hc] at h1
        exact Or.inl h1
      · rw [if_neg hc] at h1
        exact Or.inl h1
    · rw [if_neg h429] at h1
      by_cases hct : nonHtmlCt ct = true
      · rw [if_pos hct] at h1
        exact Or.inl h1
      · rw [if_neg hct] at h1
        rcases bodyRes with _ | ⟨body, links⟩
        · exact Or.inl h1
        · simp only at h1
          rcases enqueueLinks_depthMap _ _ _ _ _ _ h1 with h2 | h2
          · exact Or.inl h2
          · exact Or.inr h2

theorem processUrl_depthMap_new (cfg : Cfg) (fetch : String → FetchOutcome)
    (robots : String → Bool) (st : WState) (url : Url) (k : String) (v : Nat)
    (h0 : assocFind st.depthMap k = none)
    (h1 : assocFind (processUrl cfg fetch robots st url).depthMap k = some v) :
    v = depthOf st.depthMap url.key + 1 := by
  by_cases hd : cfg.maxDepth ≤ depthOf st.depthMap url.key
  · rw [processUrl_discard cfg fetch robots st url hd, h0] at h1
    exact Option.noConfusion h1
  · by_cases hr : robotsAllowed cfg robots url.key = true
    · rw [processUrl_fetch_eq cfg fetch robots st url hd hr] at h1
      rcases processOutcome_depthMap _ _ _ _ _ _ _ h1 with h2 | h2
      · rw [h0] at h2
        exact Option.noConfusion h2
      · exact h2
    · rw [processUrl_robots_skip cfg fetch robots st url hd
        (Bool.not_eq_true _ ▸ hr), h0] at h1
      exact Option.noConfusion h1

theorem check_rules_foldl (path : String) (rules : List Rule) :
    ∀ acc : Option Bool,
      rules.foldl
        (fun acc r =>
          match r with
          | .allow p => if path_matches p path then some true else acc
          | .disallow p => if path_matches p path then some false else acc)
        acc =
      match lastMatch rules path with
      | some r => some r.isAllow
      | none => acc := by
  induction rules with
  | nil => intro acc; rfl
  | cons r rest ih =>
    intro acc
    simp only [List.foldl_cons]
    rw [ih]
    simp only [lastMatch]
    cases hlm : lastMatch rest path with
    | some r2 => rfl
    | none =>
      cases r with
      | allow p =>
        by_cases hm : path_matches p path
        · simp [ruleMatches, Rule.pattern, Rule.isAllow, hm]
        · simp [ruleMatches, Rule.pattern, hm]
      | disallow p =>
        by_cases hm : path_matches p path
        · simp [ruleMatches, Rule.pattern, Rule.isAllow, hm]
        · simp [ruleMatches, Rule.pattern, hm]

theorem check_rules_eq_lastMatch (rules : List Rule) (path : String) :
    check_rules rules path = (lastMatch rules path).map Rule.isAllow := by
  unfold check_rules
  rw [check_rules_foldl path rules none]
  cases lastMatch rules path <;> rfl

theorem firstPrefixDecision_none (m : List (String × List Rule))
    (ua path : String) (h : ∀ p ∈ m, check_rules p.2 path = none) :
    firstPrefixDecision m ua path = none := by
  induction m with
  | nil => rfl
  | cons p rest ih =>
    obtain ⟨agent, rs⟩ := p
    have hp : check_rules rs path = none := h (agent, rs) (List.mem_cons_self _ _)
    have hrest : ∀ q ∈ rest, check_rules q.2 path = none :=
      fun q hq => h q (List.mem_cons_of_mem _ hq)
    simp only [firstPrefixDecision, hp, ih hrest]
    split <;> rfl

theorem lookupRules_mem (m : List (String × List Rule)) (k : String)
    (rs : List Rule) (h : lookupRules m k = some rs) : ∃ a, (a, rs) ∈ m := by
  unfold lookupRules at h
  cases hf : m.find? (fun p => decide (p.1 = k)) with
  | none => rw [hf] at h; exact Option.noConfusion h
  | some p =>
    rw [hf] at h
    have hmem := List.mem_of_find?_eq_some hf
    refine ⟨p.1, ?_⟩
    rw [← Option.some.inj h]
    exact hmem

theorem groupBind_none (m : List (String × List Rule)) (k path : String)
    (h1 : ∀ p ∈ m, check_rules p.2 path = none) :
    (lookupRules m k).bind (fun rs => check_rules rs path) = none := by
  cases hb : (lookupRules m k).bind (fun rs => check_rules rs path) with
  | none => rfl
  | some b =>
    rcases Option.bind_eq_some.mp hb with ⟨rs, hl, hcr⟩
    obtain ⟨a, hmem⟩ := lookupRules_mem _ _ _ hl
    have : check_rules rs path = none := h1 (a, rs) hmem
    rw [this] at hcr
    exact Option.noConfusion hcr

theorem can_fetch_default_allow (rt : RobotsTxt) (ua path : String)
    (h1 : ∀ p ∈ rt.rules, check_rules p.2 path = none)
    (h2 : check_rules rt.default_rules path = none) :
    can_fetch rt ua path = true := by
  have hdef : canFetchDefaultTier rt path = true := by
    unfold canFetchDefaultTier
    rw [h2]
  have hpre : canFetchPrefixTier rt (strLower ua) path = true := by
    unfold canFetchPrefixTier
    rw [firstPrefixDecision_none rt.rules (strLower ua) path h1,
      groupBind_none rt.rules "*" path h1]
    exact hdef
  show (match (lookupRules rt.rules (strLower ua)).bind
          (fun rs => check_rules rs path) with
        | some allowed => allowed
        | none => canFetchPrefixTier rt (strLower ua) path) = true
  rw [groupBind_none rt.rules (strLower ua) path h1]
  exact hpre

theorem jsdep_fst (d : HtmlDoc) :
    (is_javascript_dependent d).1 = !((is_javascript_dependent d).2).isEmpty := by
  simp only [is_javascript_dependent]
  exact decide_one_le_length _

theorem processUrl_netError (cfg : Cfg) (fetch : String → FetchOutcome)
    (robots : String → Bool) (st : WState) (url : Url)
    (hd : ¬ cfg.maxDepth ≤ depthOf st.depthMap url.key)
    (hr : robotsAllowed cfg robots url.key = true)
    (hf : fetch url.key = .netError) :
    (processUrl cfg fetch robots st url).recorded =
      st.recorded ++ [⟨url.key, 0, none, none⟩] ∧
    (processUrl cfg fetch robots st url).pagesCount = st.pagesCount + 1 := by
  rw [processUrl_fetch_eq cfg fetch robots st url hd hr, hf]
  exact ⟨rfl, rfl⟩

theorem processUrl_429 (cfg : Cfg) (fetch : String → FetchOutcome)
    (robots : String → Bool) (st : WState) (url : Url) (ct : Option String)
    (b : Option (String × List Url))
    (hd : ¬ cfg.maxDepth ≤ depthOf st.depthMap url.key)
    (hr : robotsAllowed cfg robots url.key = true)
    (hf : fetch url.key = .response 429 ct b) :
    (processUrl cfg fetch robots st url).pagesCount = st.pagesCount ∧
    (processUrl cfg fetch robots st url).recorded = st.recorded ∧
    (url ∈ (processUrl cfg fetch robots st url).important ∨
      url ∈ (processUrl cfg fetch robots st url).regular) := by
  rw [processUrl_fetch_eq cfg fetch robots st url hd hr, hf]
  by_cases hc : containsAny url.key rateRetryPatterns = true
  · simp only [processOutcome, if_pos rfl, if_pos hc]
    exact ⟨rfl, rfl, Or.inl (by simp)⟩
  · simp only [processOutcome, if_pos rfl, if_neg hc]
    exact ⟨rfl, rfl, Or.inr (by simp)⟩

theorem runLoopN_succ_running (cfg : Cfg) (fetch : String → FetchOutcome)
    (robots : String → Bool) (n : Nat) (st st2 : WState)
    (h : loopIter cfg fetch robots st = .running st2) :
    runLoopN cfg fetch robots (n + 1) st = runLoopN cfg fetch robots n st2 := by
  simp only [runLoopN, h]

theorem c6_step (log : List String) :
    loopIter c2cfg fetch429 robotsTrue (c6state log) =
      .running (c6state (log ++ [c2url.key])) := rfl

theorem c6_start :
    loopIter c2cfg fetch429 robotsTrue c2s0 = .running (c6state [c2url.key]) :=
  rfl

theorem c6_run (n : Nat) : ∀ log : List String,
    runLoopN c2cfg fetch429 robotsTrue n (c6state log) =
      c6state (log ++ List.replicate n c2url.key) := by
  induction n with
  | zero => intro log; simp [runLoopN, List.append_nil]
  | succ m ih =>
    intro log
    rw [runLoopN_succ_running c2cfg fetch429 robotsTrue m _ _ (c6_step log),
      ih (log ++ [c2url.key]), List.append_assoc, List.singleton_append,
      ← List.replicate_succ]

/-! ### Claim theorems -/

/-- Claim C1, counterexample: the code's check and insert are two separate
lock acquisitions (crawler.rs lines 851-869), so in the interleaving where
both workers run their filter phase before either runs its insert phase, both
workers see the URL as unvisited and both enqueue it — "only the first caller
to see u may enqueue it" and "register(u) returns true exactly once regardless
of concurrent callers" fail. -/
theorem c1_cex :
    (regRun ["https://example.com/page"] ["https://example.com/page"]
        ⟨[], [], [], [], []⟩
        [.checkOf1, .checkOf2, .insOf1, .insOf2]).enq1 =
      ["https://example.com/page"] ∧
    (regRun ["https://example.com/page"] ["https://example.com/page"]
        ⟨[], [], [], [], []⟩
        [.checkOf1, .checkOf2, .insOf1, .insOf2]).enq2 =
      ["https://example.com/page"] := by
  decide

/-- Claim C1, amended: the visited check and the insert happen under two
separate lock acquisitions, so only when each caller's two phases run without
interleaving is a URL enqueued by at most one caller; the atomic
check-then-insert `register` that the spec describes does return true exactly
once (true on a fresh URL, false ever after). -/
theorem c1_thm :
    (∀ (s : List String) (u : String),
      memS s u = false → (registerSpec u s).1 = true) ∧
    (∀ (s : List String) (u : String),
      (registerSpec u (registerSpec u s).2).1 = false) ∧
    (∀ (v l1 l2 : List String) (u : String),
      u ∈ (regRun l1 l2 ⟨v, [], [], [], []⟩
            [.checkOf1, .insOf1, .checkOf2, .insOf2]).enq1 →
      u ∉ (regRun l1 l2 ⟨v, [], [], [], []⟩
            [.checkOf1, .insOf1, .checkOf2, .insOf2]).enq2) := by
  refine ⟨?_, ?_, ?_⟩
  · intro s u h
    simp [registerSpec, h]
  · intro s u
    by_cases h : memS s u = true
    · simp [registerSpec, h]
    · have h2 : memS (s ++ [u]) u = true :=
        (memS_iff _ _).mpr (List.mem_append.mpr (Or.inr (List.mem_singleton.mpr rfl)))
      simp [registerSpec, h, h2]
  · intro v l1 l2 u h1 h2
    simp only [regRun, List.foldl_cons, List.foldl_nil, regStep,
      List.nil_append] at h1 h2
    rcases List.mem_filter.mp h2 with ⟨_, hcond⟩
    have hmm : u ∈ (l1.filter fun l => !memS v l).foldl insertKey v :=
      (mem_foldl_insertKey _ _ _).mpr (Or.inr h1)
    rw [(memS_iff _ _).mpr hmm] at hcond
    exact Bool.noConfusion hcond

/-- Witness for the amended claim C1 at a concrete URL. -/
theorem c1_thm_witness :
    (memS [] "x" = false ∧ (registerSpec "x" []).1 = true) ∧
    ("x" ∈ (regRun ["x"] ["x"] ⟨[], [], [], [], []⟩
        [.checkOf1, .insOf1, .checkOf2, .insOf2]).enq1 ∧
      "x" ∉ (regRun ["x"] ["x"] ⟨[], [], [], [], []⟩
        [.checkOf1, .insOf1, .checkOf2, .insOf2]).enq2) :=
  ⟨⟨by decide, c1_thm.1 [] "x" (by decide)⟩,
   by decide, c1_thm.2.2 [] ["x"] ["x"] "x" (by decide)⟩

/-- Claim C2: running the worker on a single URL whose response body always
fails to decode shows the retry cap of 3 is not enforced — after four loop
iterations the URL has been fetched four times and the retry queue still holds
three live entries for it (each failure re-enqueues the URL with attempt count
reset to 1, and a popped entry is re-queued with count+1 even while the
attempt is in flight).  No page is recorded, as the claim says. -/
theorem c2_thm :
    (runLoopN c2cfg fetchBodyFail robotsTrue 4 c2s0).fetchLog =
      [c2url.key, c2url.key, c2url.key, c2url.key] ∧
    (runLoopN c2cfg fetchBodyFail robotsTrue 4 c2s0).recorded = [] ∧
    (runLoopN c2cfg fetchBodyFail robotsTrue 4 c2s0).retryQ =
      [(c2url, 3), (c2url, 1), (c2url, 2), (c2url, 1)] := by
  decide

/-- Claim C3: in `extract_urls_from_sitemap` the scan position sits just past
the `<loc>` tag when the classification runs, so `rfind('<')` always lands on
that `<loc>` itself, every `<loc>` value is classified as a page URL, and the
cyclic index A -> B -> A yields only document A's loc values (including the
URL of sitemap B itself, as a "page"), never pageB. -/
theorem c3_thm :
    extract_urls_from_sitemap contentA =
      ([], ["http://e.com/B.xml", "http://e.com/pageA"]) ∧
    getSitemapUrls ["http://e.com/A.xml"] fetchAB 50 =
      ["http://e.com/B.xml", "http://e.com/pageA"] ∧
    memS (getSitemapUrls ["http://e.com/A.xml"] fetchAB 50)
      "http://e.com/pageB" = false := by
  decide

/-- Claim C4: under the `*` group `[Disallow: /a, Allow: /a/b]`, `/a/b/c` is
allowed and `/a/x` denied; in general `check_rules` returns the decision of
the last matching rule in file order, and when no rule in any group nor the
default group matches, `can_fetch` defaults to allow. -/
theorem c4_thm :
    can_fetch rtEx "CryptoCrawl" "/a/b/c" = true ∧
    can_fetch rtEx "CryptoCrawl" "/a/x" = false ∧
    (∀ (rules : List Rule) (path : String),
      check_rules rules path = (lastMatch rules path).map Rule.isAllow) ∧
    (∀ (rt : RobotsTxt) (ua path : String),
      (∀ p ∈ rt.rules, check_rules p.2 path = none) →
      check_rules rt.default_rules path = none →
      can_fetch rt ua path = true) :=
  ⟨by decide, by decide, check_rules_eq_lastMatch, can_fetch_default_allow⟩

/-- Witness for claim C4's default-allow clause at an empty robots.txt. -/
theorem c4_thm_witness :
    (∀ p ∈ (⟨[], []⟩ : RobotsTxt).rules, check_rules p.2 "/p" = none) ∧
    check_rules (⟨[], []⟩ : RobotsTxt).default_rules "/p" = none ∧
    can_fetch ⟨[], []⟩ "SomeBot" "/p" = true :=
  ⟨by simp, by decide,
    c4_thm.2.2.2 ⟨[], []⟩ "SomeBot" "/p" (by simp) (by decide)⟩

/-- Claim C5: a dequeued URL whose recorded depth has reached `max_depth` is
discarded without fetching (the state is returned untouched); a fetch happens
only when the recorded depth is strictly below `max_depth`; and every depth
newly recorded while processing a parent equals the parent's recorded depth
plus one. -/
theorem c5_thm (cfg : Cfg) (fetch : String → FetchOutcome)
    (robots : String → Bool) (st : WState) (url : Url) :
    (cfg.maxDepth ≤ depthOf st.depthMap url.key →
      processUrl cfg fetch robots st url = st) ∧
    ((processUrl cfg fetch robots st url).fetchLog ≠ st.fetchLog →
      depthOf st.depthMap url.key < cfg.maxDepth) ∧
    (∀ (k : String) (v : Nat), assocFind st.depthMap k = none →
      assocFind (processUrl cfg fetch robots st url).depthMap k = some v →
      v = depthOf st.depthMap url.key + 1) := by
  refine ⟨processUrl_discard cfg fetch robots st url, ?_,
    fun k v h0 h1 => processUrl_depthMap_new cfg fetch robots st url k v h0 h1⟩
  intro hlog
  by_contra hlt
  have hd : cfg.maxDepth ≤ depthOf st.depthMap url.key := Nat.le_of_not_lt hlt
  rw [processUrl_discard cfg fetch robots st url hd] at hlog
  exact hlog rfl

/-- Witness for claim C5: with the seed recorded at depth 1 and
`max_depth = 1`, the dequeued seed is discarded untouched. -/
theorem c5_thm_witness :
    cfg8.maxDepth ≤ depthOf s8d.depthMap seed8.key ∧
    processUrl cfg8 fetch8 robotsTrue s8d seed8 = s8d :=
  ⟨by decide, (c5_thm cfg8 fetch8 robotsTrue s8d seed8).1 (by decide)⟩

/-- Claim C6: a network error records a zero-size page with no status code
and increments the processed counter; HTTP 429 re-enqueues the URL onto a
frontier tier without touching the counter; and with an always-429 oracle the
worker loop reaches, after n+1 iterations, a state that has fetched the URL
n+1 times with the counter still 0 and the URL still queued — unbounded
retries. -/
theorem c6_thm :
    (∀ (cfg : Cfg) (fetch : String → FetchOutcome) (robots : String → Bool)
        (st : WState) (url : Url),
      ¬ cfg.maxDepth ≤ depthOf st.depthMap url.key →
      robotsAllowed cfg robots url.key = true →
      fetch url.key = .netError →
      (processUrl cfg fetch robots st url).recorded =
        st.recorded ++ [⟨url.key, 0, none, none⟩] ∧
      (processUrl cfg fetch robots st url).pagesCount = st.pagesCount + 1) ∧
    (∀ (cfg : Cfg) (fetch : String → FetchOutcome) (robots : String → Bool)
        (st : WState) (url : Url) (ct : Option String)
        (b : Option (String × List Url)),
      ¬ cfg.maxDepth ≤ depthOf st.depthMap url.key →
      robotsAllowed cfg robots url.key = true →
      fetch url.key = .response 429 ct b →
      (processUrl cfg fetch robots st url).pagesCount = st.pagesCount ∧
      (processUrl cfg fetch robots st url).recorded = st.recorded ∧
      (url ∈ (processUrl cfg fetch robots st url).important ∨
        url ∈ (processUrl cfg fetch robots st url).regular)) ∧
    (∀ n : Nat,
      runLoopN c2cfg fetch429 robotsTrue (n + 1) c2s0 =
        c6state (List.replicate (n + 1) c2url.key)) := by
  refine ⟨processUrl_netError, processUrl_429, ?_⟩
  intro n
  rw [runLoopN_succ_running c2cfg fetch429 robotsTrue n _ _ c6_start,
    c6_run n [c2url.key], List.singleton_append, ← List.replicate_succ]

/-- Witness for claim C6's network-error clause at a concrete state. -/
theorem c6_thm_witness :
    (¬ c2cfg.maxDepth ≤ depthOf c2s0.depthMap c2url.key) ∧
    robotsAllowed c2cfg robotsTrue c2url.key = true ∧
    (processUrl c2cfg fetchNet robotsTrue c2s0 c2url).recorded =
      c2s0.recorded ++ [⟨c2url.key, 0, none, none⟩] ∧
    (processUrl c2cfg fetchNet robotsTrue c2s0 c2url).pagesCount =
      c2s0.pagesCount + 1 :=
  ⟨by decide, by decide,
    (c6_thm.1 c2cfg fetchNet robotsTrue c2s0 c2url (by decide) (by decide) rfl).1,
    (c6_thm.1 c2cfg fetchNet robotsTrue c2s0 c2url (by decide) (by decide) rfl).2⟩

/-- Claim C7: the crawl returns an error exactly when the seed URL fails to
parse or parses without a host — in which case the returned value does not
depend on the network oracles or fuel, i.e. no work happened; in every other
case it returns a result whose status went `InProgress` (at creation) to
`Completed` (at `complete()`), never `Failed`. -/
theorem c7_thm (parse : String → Option Url) (task : TaskM)
    (fetch fetch2 : String → FetchOutcome) (robots robots2 : String → Bool)
    (wid fuel wid2 fuel2 : Nat) :
    (∀ e, crawlModel parse task fetch robots wid fuel = .error e →
      parse task.target_url = none ∨
      ∃ u, parse task.target_url = some u ∧ u.host = none) ∧
    ((parse task.target_url = none ∨
        (∃ u, parse task.target_url = some u ∧ u.host = none)) →
      (∃ e, crawlModel parse task fetch robots wid fuel = .error e) ∧
      crawlModel parse task fetch robots wid fuel =
        crawlModel parse task fetch2 robots2 wid2 fuel2) ∧
    (∀ r, crawlModel parse task fetch robots wid fuel = .ok r →
      r.status = .Completed ∧ r.status ≠ .Failed) ∧
    (∀ i d, (CrawlResultM.new i d).status = .InProgress) ∧
    (∀ r, (CrawlResultM.complete r).status = .Completed) := by
  cases hp : parse task.target_url with
  | none =>
    refine ⟨fun e _ => Or.inl rfl, fun _ => ⟨⟨"Failed to parse target URL", ?_⟩, ?_⟩,
      fun r hr => ?_, fun i d => rfl, fun r => rfl⟩
    · simp [crawlModel, hp]
    · simp [crawlModel, hp]
    · simp [crawlModel, hp] at hr
  | some u =>
    have hnh : (Url.norm u).host = u.host := rfl
    cases hh : u.host with
    | none =>
      refine ⟨fun e _ => Or.inr ⟨u, rfl, hh⟩,
        fun _ => ⟨⟨"URL has no host", ?_⟩, ?_⟩, fun r hr => ?_,
        fun i d => rfl, fun r => rfl⟩
      · simp [crawlModel, hp, hnh, hh]
      · simp [crawlModel, hp, hnh, hh]
      · simp [crawlModel, hp, hnh, hh] at hr
    | some dmn =>
      refine ⟨fun e he => ?_, fun h => ?_, fun r hr => ?_,
        fun i d => rfl, fun r => rfl⟩
      · exfalso
        simp [crawlModel, hp, hnh, hh] at he
      · exfalso
        rcases h with h | ⟨u2, hu2, hh2⟩
        · exact Option.noConfusion h
        · rw [← Option.some.inj hu2] at hh2
          rw [hh] at hh2
          exact Option.noConfusion hh2
      · simp only [crawlModel, hp, hnh, hh] at hr
        have hst : r.status = CrawlStatus.Completed := by
          rw [← Except.ok.inj hr]
          rfl
        exact ⟨hst, by rw [hst]; exact fun hx => CrawlStatus.noConfusion hx⟩

/-- Witness for claim C7 with an unparsable seed URL. -/
theorem c7_thm_witness :
    ((fun _ => (none : Option Url)) task8.target_url = none ∨
      (∃ u, (fun _ => (none : Option Url)) task8.target_url = some u ∧
        u.host = none)) ∧
    (∃ e, crawlModel (fun _ => none) task8 fetch8 robotsTrue 1 10 = .error e) ∧
    crawlModel (fun _ => none) task8 fetch8 robotsTrue 1 10 =
      crawlModel (fun _ => none) task8 fetchNet robotsTrue 2 99 :=
  ⟨Or.inl rfl,
    ((c7_thm (fun _ => none) task8 fetch8 fetchNet robotsTrue robotsTrue
        1 10 2 99).2.1 (Or.inl rfl)).1,
    ((c7_thm (fun _ => none) task8 fetch8 fetchNet robotsTrue robotsTrue
        1 10 2 99).2.1 (Or.inl rfl)).2⟩

/-- Claim C8, counterexample: in the end-to-end scenario (seed
`https://example.com/`, `max_depth = 1`, `max_links = 5`, three same-domain
and two cross-domain links on the seed page) the returned CrawlResult's
`pages` list is empty — it includes neither the seed page nor any depth-1
child, because `crawl_with_streaming` streams pages out and never appends to
`result.pages`, and because depth-1 entries are discarded on dequeue. -/
theorem c8_cex :
    crawlModel parse8 task8 fetch8 robotsTrue 1 10 =
      .ok { task_id := "t8", domain := "https://example.com/",
            status := .Completed, pages := [], pages_count := 1,
            total_size := 21 } := by
  rfl

/-- Claim C8, amended: in that scenario only the seed page is fetched and
recorded (the three same-domain children are registered at depth 1 and
enqueued, then discarded on dequeue because depth 1 has reached
`max_depth = 1`); the cross-domain links are excluded entirely;
`pages_count = 1 ≤ 4`; and the returned CrawlResult carries the counters but
an empty `pages` list. -/
theorem c8_thm :
    c8final.recorded =
      [⟨"https://example.com/", 21, some 200, some "text/html"⟩] ∧
    c8final.fetchLog = ["https://example.com/"] ∧
    memS c8final.visited "https://example.com/p1" = true ∧
    memS c8final.visited "https://example.com/p2" = true ∧
    memS c8final.visited "https://example.com/p3" = true ∧
    memS c8final.visited "https://other.com/q1" = false ∧
    memS c8final.visited "https://other.com/q2" = false ∧
    assocFind c8final.depthMap "https://example.com/p1" = some 1 ∧
    c8final.pagesCount = 1 ∧ c8final.pagesCount ≤ 4 ∧
    crawlModel parse8 task8 fetch8 robotsTrue 1 10 =
      .ok { task_id := "t8", domain := "https://example.com/",
            status := .Completed, pages := [], pages_count := 1,
            total_size := 21 } := by
  refine ⟨by rfl, by rfl, by decide, by decide, by decide, by decide,
    by decide, by decide, by decide, by decide, by rfl⟩

/-- Claim C9: the classifier is a pure function whose verdict is exactly
"some reason was collected"; any one of the nine signals forces a positive
verdict; the `#root` + bundle-script page is JS-dependent with the
framework-script reason among its reasons; populated `<article>` content with
no other signal is not dependent. -/
theorem c9_thm :
    (∀ d : HtmlDoc, (is_javascript_dependent d).1 =
        !((is_javascript_dependent d).2).isEmpty) ∧
    (∀ d : HtmlDoc, anySignal d = true → (is_javascript_dependent d).1 = true) ∧
    ((is_javascript_dependent jsDoc).1 = true ∧
      "JavaScript framework script found" ∈ (is_javascript_dependent jsDoc).2) ∧
    (is_javascript_dependent articleDoc).1 = false := by
  refine ⟨jsdep_fst, ?_, ⟨by decide, by decide⟩, by decide⟩
  intro d h
  rw [jsdep_fst d]
  cases hemp : ((is_javascript_dependent d).2).isEmpty with
  | false => rfl
  | true =>
    exfalso
    have hnil : (is_javascript_dependent d).2 = [] := by
      rwa [List.isEmpty_iff] at hemp
    simp only [is_javascript_dependent, List.append_eq_nil] at hnil
    obtain ⟨⟨⟨⟨⟨⟨⟨⟨e1, e2⟩, e3⟩, e4⟩, e5⟩, e6⟩, e7⟩, e8⟩, e9⟩ := hnil
    simp [anySignal, if_singleton_eq_nil e1, if_singleton_eq_nil e2,
      if_singleton_eq_nil e3, if_singleton_eq_nil e4, if_singleton_eq_nil e5,
      if_singleton_eq_nil e6, if_singleton_eq_nil e7, if_singleton_eq_nil e8,
      if_singleton_eq_nil e9] at h

/-- Witness for claim C9's signal clause at the framework-script example. -/
theorem c9_thm_witness :
    anySignal jsDoc = true ∧ (is_javascript_dependent jsDoc).1 = true :=
  ⟨by decide, c9_thm.2.1 jsDoc (by decide)⟩

/-- Claim C10: with `max_links = None` the loop guard compares the shared
counter against `unwrap_or(1000)`: any worker state with 1000 pages counted
halts immediately, while an otherwise identical state at 999 still schedules
work — `None` is not unlimited. -/
theorem c10_thm (cfg : Cfg) (fetch : String → FetchOutcome)
    (robots : String → Bool) (st : WState) :
    (cfg.maxLinks = none → 1000 ≤ st.pagesCount →
      loopIter cfg fetch robots st = .halted st) ∧
    (loopIter c2cfg fetch429 robotsTrue c10st999).isHalted = false ∧
    (loopIter c2cfg fetch429 robotsTrue c10st1000).isHalted = true := by
  refine ⟨?_, by decide, by decide⟩
  intro h1 h2
  unfold loopIter
  rw [h1]
  simp only [Option.getD_none]
  rw [if_pos h2]

/-- Witness for claim C10 at the 1000-page state. -/
theorem c10_thm_witness :
    c2cfg.maxLinks = none ∧ 1000 ≤ c10st1000.pagesCount ∧
    loopIter c2cfg fetch429 robotsTrue c10st1000 = .halted c10st1000 :=
  ⟨rfl, by decide,
    (c10_thm c2cfg fetch429 robotsTrue c10st1000).1 rfl (by decide)⟩

end CryptoCrawl
